import Mathlib

/-!
Verification development for the `LegalAI` court classifier
(`src/court_classifier.py` of the email-ai-system repository).

The Python module is shallowly embedded: every regular expression of the
pattern tables is transcribed into a small regex AST (`RE`) with a
backtracking, leftmost/greedy matcher (`mGo`/`mO`), matching the semantics
of Python's `re.search` / `re.match` / `re.findall` on the pattern subset
the module uses (character classes, literals with and without
`re.IGNORECASE`, `*`, `+`, `?`, bounded repetition, alternation, negative
lookahead, `$`).  File paths are strings, the filesystem is a list of
existing paths, and text extraction is an oracle `String → String`
(the Python `_extract_text` never raises and returns `""` on failure).
Fallible Python code is embedded with `Except`: the `NameError` raised in
`_classify_by_content` (the function reads the never-assigned variable
`sorted_scores`) appears as `PyErr.nameErrorSortedScores`.
-/

namespace CourtClassifier

/-- Regex abstract syntax: character class, sequence, alternation,
Kleene star, negative lookahead, end-of-input anchor. -/
inductive RE : Type where
  | eps : RE
  | cls : (Char → Bool) → RE
  | seq : RE → RE → RE
  | alt : RE → RE → RE
  | star : RE → RE
  | nla : RE → RE
  | eos : RE

/-- One layer of the backtracking matcher, in continuation-passing style.
`starK` is the (fuel-limited) re-entry point used to iterate a star after
its body consumed at least one character; the guard on lengths rules out
empty-progress loops.  Alternation and `?` try the left branch first and
`star` tries its body before the empty iteration, matching Python's
leftmost/greedy backtracking behaviour. -/
def mGo (starK : RE → List Char → (List Char → Option (List Char)) → Option (List Char)) :
    RE → List Char → (List Char → Option (List Char)) → Option (List Char)
  | .eps, s, k => k s
  | .cls _, [], _ => none
  | .cls p, c :: s, k => if p c then k s else none
  | .eos, s, k => if s.isEmpty then k s else none
  | .seq a b, s, k => mGo starK a s (fun s1 => mGo starK b s1 k)
  | .alt a b, s, k => (mGo starK a s k).orElse (fun _ => mGo starK b s k)
  | .nla r, s, k =>
      match mGo starK r s some with
      | some _ => none
      | none => k s
  | .star r, s, k =>
      (mGo starK r s (fun s1 =>
        if s1.length < s.length then starK (.star r) s1 k else none)).orElse
        (fun _ => k s)

/-- Fuel-indexed matcher.  A fuel of `s.length + 1` suffices for a match
attempt on `s`, because every star iteration consumes at least one
character. -/
def mO : Nat → RE → List Char → (List Char → Option (List Char)) → Option (List Char)
  | 0, r, s, k => mGo (fun _ _ _ => none) r s k
  | fuel + 1, r, s, k => mGo (mO fuel) r s k

/-- Attempt a match of `r` anchored at the start of `s`; on success return
the remainder of `s` after the (backtracking-preferred) match. -/
def tryAt (r : RE) (s : List Char) : Option (List Char) :=
  mO (s.length + 1) r s some

/-- `re.search` semantics: try the pattern at every start position, left to
right.  On success, return the suffix at which the match starts together
with the remainder after the match. -/
def reSearchSplit (r : RE) : List Char → Option (List Char × List Char)
  | [] =>
    match tryAt r [] with
    | some rem => some ([], rem)
    | none => none
  | c :: t =>
    match tryAt r (c :: t) with
    | some rem => some (c :: t, rem)
    | none => reSearchSplit r t

/-- Boolean `re.search`. -/
def reSearch (r : RE) (s : List Char) : Bool :=
  (reSearchSplit r s).isSome

/-- Boolean `re.match` (anchored at the start, prefix match). -/
def reMatchB (r : RE) (s : String) : Bool :=
  (tryAt r s.data).isSome

/-- Count of non-overlapping matches, scanning left to right
(`len(re.findall(...))`). After a non-empty match the scan resumes at its
end; after an empty match it advances one character. -/
def countAux (r : RE) : Nat → List Char → Nat
  | 0, _ => 0
  | fuel + 1, s =>
    match reSearchSplit r s with
    | none => 0
    | some pr =>
      if pr.2.length < pr.1.length then 1 + countAux r fuel pr.2
      else
        match pr.2 with
        | [] => 1
        | _ :: t => 1 + countAux r fuel t

/-- `len(re.findall(pattern, s))`. -/
def countMatches (r : RE) (s : List Char) : Nat :=
  countAux r (s.length + 1) s

/-! Pattern-building helpers. -/

/-- Case-sensitive literal character. -/
def rchar (c : Char) : RE := .cls (fun x => x == c)

/-- Case-insensitive literal character (`re.IGNORECASE`). -/
def richar (c : Char) : RE := .cls (fun x => x.toLower == c.toLower)

/-- Sequence a list of regexes. -/
def rseq (l : List RE) : RE := l.foldr RE.seq .eps

/-- Case-sensitive literal string. -/
def rstr (s : String) : RE := rseq (s.data.map rchar)

/-- Case-insensitive literal string. -/
def ristr (s : String) : RE := rseq (s.data.map richar)

/-- `\d`. -/
def rdigit : RE := .cls Char.isDigit

/-- `\s`. -/
def rspace : RE :=
  .cls (fun c => c == ' ' || c == '\t' || c == '\n' || c == '\x0b' || c == '\x0c' || c == '\r')

/-- `.` (anything but a newline). -/
def rdot : RE := .cls (fun c => !(c == '\n'))

/-- `[^)]`. -/
def rnotRP : RE := .cls (fun c => !(c == ')'))

/-- `[1-9]`. -/
def rpos : RE := .cls (fun c => 49 ≤ c.toNat && c.toNat ≤ 57)

/-- `r+`. -/
def rplus (r : RE) : RE := .seq r (.star r)

/-- `r?` (greedy). -/
def ropt (r : RE) : RE := .alt r .eps

/-- `r{n}`. -/
def rrep (r : RE) : Nat → RE
  | 0 => .eps
  | n + 1 => .seq r (rrep r n)

/-- Left-nested alternation of a nonempty list of branches. -/
def raltL (x : RE) (l : List RE) : RE := l.foldl RE.alt x

/-! Data model. -/

/-- Court categories: the string tags used by the Python classifier, plus
the sentinel `unknown`. -/
inductive Category : Type where
  | court_of_appeals
  | appellate_division
  | supreme_court
  | civil_court
  | us_supreme_court
  | second_circuit
  | sdny
  | edny
  | unknown
deriving DecidableEq

/-- The directory-name string for a category (the Python code uses the
category strings directly as directory names). -/
def catName : Category → String
  | .court_of_appeals => "court_of_appeals"
  | .appellate_division => "appellate_division"
  | .supreme_court => "supreme_court"
  | .civil_court => "civil_court"
  | .us_supreme_court => "us_supreme_court"
  | .second_circuit => "second_circuit"
  | .sdny => "sdny"
  | .edny => "edny"
  | .unknown => "unknown"

/-- Unhandled Python exceptions of the module.
`nameErrorSortedScores` is the `NameError` raised in
`_classify_by_content`, which reads the variable `sorted_scores` that is
never assigned anywhere in the function. -/
inductive PyErr : Type where
  | nameErrorSortedScores
deriving DecidableEq

/-! The pattern tables of `ImprovedCourtClassifier.__init__`, transcribed
regex by regex.  All patterns below are used with `re.IGNORECASE`
(hence `ristr`/`richar`), except the citation-extraction regex and the
two numeric-shape fallback regexes of `_classify_by_slip_op`, which the
code uses without flags (hence `rstr`/`rchar`). -/

/-- Shared prefix `\d4 \s+ NY \s+ Slip \s+ Op \s+` (IGNORECASE version). -/
def slipHeadI : RE :=
  rseq [rrep rdigit 4, rplus rspace, ristr "NY", rplus rspace, ristr "Slip",
        rplus rspace, ristr "Op", rplus rspace]

/-- Shared prefix (case-sensitive version, for the fallback rules). -/
def slipHeadC : RE :=
  rseq [rrep rdigit 4, rplus rspace, rstr "NY", rplus rspace, rstr "Slip",
        rplus rspace, rstr "Op", rplus rspace]

/-- `self.slip_op_patterns['court_of_appeals']`. -/
def slipCoA : List RE :=
  [ rseq [slipHeadI, rrep rdigit 5, .nla (.seq (.star rspace) (rchar '('))],
    rseq [ristr "Court of Appeals", .star rdot, ristr "State of New York"],
    rseq [ristr "Court of Appeals", rplus rspace, ristr "of", rplus rspace, ristr "New York"],
    ristr "NEW YORK COURT OF APPEALS" ]

/-- The department-ordinal alternation used in the third appellate-division
slip-op pattern. -/
def deptOrds : RE :=
  raltL (ristr "First")
    [ristr "1st", ristr "Second", ristr "2nd", ristr "Third", ristr "3rd",
     ristr "Fourth", ristr "4th"]

/-- `self.slip_op_patterns['appellate_division']`. -/
def slipAD : List RE :=
  [ rseq [slipHeadI, rplus rdigit, .star rspace, rchar '(', .star rnotRP, ristr "Dept"],
    rseq [ristr "Appellate Division", .star rdot, ristr "Department"],
    rseq [ristr "App", ropt (.alt (rchar '.') (ristr "ellate")), .star rspace,
          ristr "Div", ropt (.alt (rchar '.') (ristr "ision")), .star rdot,
          deptOrds, .star rspace, ristr "Dep"],
    rseq [ristr "APPELLATE DIVISION", .star rdot, ristr "DEPARTMENT"],
    ristr "AD3d",
    rseq [rplus rdigit, rplus rspace, ristr "A.D.3d", rplus rspace, rplus rdigit] ]

/-- `self.slip_op_patterns['supreme_court']`. -/
def slipSup : List RE :=
  [ rseq [slipHeadI, rplus rdigit, .star rspace, rchar '(', .star rspace,
          richar 'U', .star rspace, rchar ')'],
    rseq [slipHeadI, rplus rdigit, .star rspace, rchar '(', .star rnotRP,
          ristr "Sup", .star rspace, ristr "Ct"],
    rseq [ristr "Supreme Court", .star rdot, ristr "County"],
    rseq [ristr "Sup", ropt (.alt (rchar '.') (ristr "reme")), .star rspace,
          richar 'C', ropt (ristr "our"), richar 't', ropt (rchar '.'),
          .nla (.seq (.star rdot) (ristr "App"))],
    rseq [ristr "SUPREME COURT", .star rdot, ristr "COUNTY"],
    rseq [ristr "Misc", ropt (rchar '.'), .star rspace, ristr "3d"],
    rseq [rplus rdigit, rplus rspace, ristr "Misc.3d", rplus rspace, rplus rdigit] ]

/-- `self.header_patterns['court_of_appeals']`. -/
def hdrCoA : List RE :=
  [ rseq [ristr "Court of Appeals", rplus rspace, ristr "of", rplus rspace,
          ropt (.seq (ristr "the") (rplus rspace)), ristr "State of New York"],
    ristr "NEW YORK COURT OF APPEALS",
    ristr "In the Court of Appeals" ]

/-- `self.header_patterns['appellate_division']`. -/
def hdrAD : List RE :=
  [ rseq [ristr "Supreme Court", .star rdot, ristr "Appellate Division"],
    rseq [ristr "APPELLATE DIVISION", .star rdot, ristr "JUDICIAL DEPARTMENT"],
    rseq [ristr "Appellate Division", .star rdot, ristr "Department"],
    rseq [ristr "AD", rplus rspace,
          raltL (ristr "First") [ristr "Second", ristr "Third", ristr "Fourth"]] ]

/-- `self.header_patterns['supreme_court']`. -/
def hdrSup : List RE :=
  [ rseq [ristr "Supreme Court", .star rdot, ristr "State of New York"],
    rseq [ristr "SUPREME COURT", .star rdot, ristr "COUNTY"],
    rseq [ristr "Supreme Court", .star rdot, ristr "County", .star rdot,
          ristr "State of New York"],
    rseq [ristr "At", .star rdot, ristr "Term", .star rdot, ristr "Supreme Court"] ]

/-- `self.header_patterns['civil_court']`. -/
def hdrCivil : List RE :=
  [ rseq [ristr "Civil Court", .star rdot, ristr "City of New York"],
    rseq [ristr "CIVIL COURT", .star rdot, ristr "COUNTY"],
    ristr "Housing Court" ]

/-- `self.federal_patterns['us_supreme_court']`. -/
def fedUSSC : List RE :=
  [ ristr "Supreme Court of the United States",
    rseq [ristr "U.S.", rplus rspace, rplus rdigit],
    rseq [rplus rdigit, rplus rspace, ristr "S.", .star rspace, ristr "Ct."] ]

/-- `self.federal_patterns['second_circuit']`. -/
def fedSecond : List RE :=
  [ rseq [ristr "United States Court of Appeals", .star rdot, ristr "Second Circuit"],
    rseq [rplus rdigit, rplus rspace, ristr "F.3d", rplus rspace, rplus rdigit,
          .star rdot, ristr "(2d Cir"],
    ristr "USCA2",
    rseq [ristr "U.S.C.A.", .star rdot, ristr "Second Circuit"] ]

/-- `self.federal_patterns['sdny']`. -/
def fedSDNY : List RE :=
  [ ristr "Southern District of New York",
    ristr "S.D.N.Y.",
    rseq [rplus rdigit, rplus rspace, ristr "F.", .star rspace, ristr "Supp.",
          .star rdot, ristr "S.D.N.Y"] ]

/-- `self.federal_patterns['edny']`. -/
def fedEDNY : List RE :=
  [ ristr "Eastern District of New York",
    ristr "E.D.N.Y.",
    rseq [rplus rdigit, rplus rspace, ristr "F.", .star rspace, ristr "Supp.",
          .star rdot, ristr "E.D.N.Y" ] ]

/-- `self.slip_op_patterns`, in dict insertion order. -/
def slipOpGroups : List (Category × List RE) :=
  [(.court_of_appeals, slipCoA), (.appellate_division, slipAD), (.supreme_court, slipSup)]

/-- `self.header_patterns`, in dict insertion order. -/
def headerGroups : List (Category × List RE) :=
  [(.court_of_appeals, hdrCoA), (.appellate_division, hdrAD),
   (.supreme_court, hdrSup), (.civil_court, hdrCivil)]

/-- `self.federal_patterns`, in dict insertion order. -/
def federalGroups : List (Category × List RE) :=
  [(.us_supreme_court, fedUSSC), (.second_circuit, fedSecond),
   (.sdny, fedSDNY), (.edny, fedEDNY)]

/-- The merged dict `{**slip_op_patterns, **header_patterns,
**federal_patterns}` of `_classify_by_content`: the three state keys of
`slip_op_patterns` come first in insertion order but their values are
overridden by `header_patterns`; then the new key `civil_court`, then the
federal keys. -/
def contentGroups : List (Category × List RE) :=
  [(.court_of_appeals, hdrCoA), (.appellate_division, hdrAD),
   (.supreme_court, hdrSup), (.civil_court, hdrCivil),
   (.us_supreme_court, fedUSSC), (.second_circuit, fedSecond),
   (.sdny, fedSDNY), (.edny, fedEDNY)]

/-- The `verification_patterns` dict of `_verify_classification`. -/
def verificationGroups : List (Category × List RE) :=
  [ (.court_of_appeals,
      [rseq [ristr "Court of Appeals", .star rdot, ristr "State of New York"],
       rseq [ristr "Albany", .star rdot, ristr "New York"]]),
    (.appellate_division,
      [ristr "Appellate Division",
       rseq [raltL (ristr "First") [ristr "Second", ristr "Third", ristr "Fourth"],
             rplus rspace, ristr "Department"]]),
    (.supreme_court,
      [rseq [ristr "Supreme Court", .star rdot, ristr "County"],
       ristr "Trial Term"]) ]

/-- The citation-extraction regex of `classify_document`
(case-sensitive): `\d4 \s+ NY \s+ Slip \s+ Op \s+ \d+ ( \s* \( [^)]* \) )?`. -/
def citationRE : RE :=
  rseq [slipHeadC, rplus rdigit,
        ropt (rseq [.star rspace, rchar '(', .star rnotRP, rchar ')'])]

/-- Fallback rule regex (case-sensitive, anchored, `$`):
a 5-digit op number starting with `0`. -/
def zeroSlipRE : RE :=
  rseq [slipHeadC, rchar '0', rrep rdigit 4, .eos]

/-- Fallback rule regex (case-sensitive, anchored, `$`):
a 5-digit op number starting with `1`-`9`. -/
def nonzeroSlipRE : RE :=
  rseq [slipHeadC, rpos, rrep rdigit 4, .eos]

/-! String helpers embedding `os.path` / `pathlib` / `str` operations. -/

/-- `os.path.basename`: the final path component (after the last `/`). -/
def basename (s : String) : String :=
  ⟨(s.data.reverse.takeWhile (fun c => !(c == '/'))).reverse⟩

/-- `str(path.parent)` for a path string: everything before the last `/`
(empty if there is no `/`). -/
def parentOf (s : String) : String :=
  ⟨((s.data.reverse.dropWhile (fun c => !(c == '/'))).drop 1).reverse⟩

/-- Python whitespace (the characters stripped by `str.strip()` that the
matcher's `\s` class also accepts). -/
def pySpace (c : Char) : Bool :=
  c == ' ' || c == '\t' || c == '\n' || c == '\x0b' || c == '\x0c' || c == '\r'

/-- `str.strip()`. -/
def pyStrip (s : String) : String :=
  ⟨((s.data.dropWhile pySpace).reverse.dropWhile pySpace).reverse⟩

/-- Whether the first list is an initial segment of the second. -/
def isPrefB : List Char → List Char → Bool
  | [], _ => true
  | _ :: _, [] => false
  | a :: as, b :: bs => a == b && isPrefB as bs

/-- Whether the first list occurs contiguously in the second. -/
def isSubB (needle : List Char) : List Char → Bool
  | [] => isPrefB needle []
  | c :: t => isPrefB needle (c :: t) || isSubB needle t

/-- Python's `needle in hay` on strings. -/
def substrB (needle hay : String) : Bool :=
  isSubB needle.data hay.data

/-- The digit characters of `n` in decimal, most significant first
(`f"..."` formatting of a non-negative integer); fuel-based division
recursion, with fuel `n + 1` always sufficient. -/
def natDigitsAux : Nat → Nat → List Char → List Char
  | 0, _, acc => acc
  | fuel + 1, n, acc =>
    if n < 10 then Char.ofNat (48 + n % 10) :: acc
    else natDigitsAux fuel (n / 10) (Char.ofNat (48 + n % 10) :: acc)

/-- Decimal rendering of a natural number, as Python string formatting
produces for the collision counter. -/
def natToStr (n : Nat) : String :=
  ⟨natDigitsAux (n + 1) n []⟩

/-- `pathlib.PurePath.stem`/`.suffix` of a filename: split at the last
dot when that dot is neither the first nor the last character, else
`(name, "")`. -/
def stemSuffix (name : String) : String × String :=
  match (name.data.reverse.findIdx? (fun c => c == '.')) with
  | some j =>
    if 0 < name.data.length - 1 - j ∧ name.data.length - 1 - j < name.data.length - 1 then
      (⟨name.data.take (name.data.length - 1 - j)⟩,
       ⟨name.data.drop (name.data.length - 1 - j)⟩)
    else (name, "")
  | none => (name, "")

/-! The classifier methods. -/

/-- `_classify_by_slip_op`, step 1: iterate the slip-op pattern dict in
insertion order, returning the first category one of whose patterns
matches the citation. -/
def findCat (cit : List Char) : List (Category × List RE) → Option Category
  | [] => none
  | g :: rest => if g.2.any (fun r => reSearch r cit) then some g.1 else findCat cit rest

/-- `_classify_by_slip_op`: pattern-table lookup, then the fallback rules
for ambiguous citations. -/
def classifyBySlipOp (citation : String) : Option Category :=
  match findCat citation.data slipOpGroups with
  | some ct => some ct
  | none =>
    if substrB "(U)" citation then some .supreme_court
    else if substrB "Dept" citation || substrB "Department" citation then
      some .appellate_division
    else if reMatchB zeroSlipRE (pyStrip citation) then none
    else if reMatchB nonzeroSlipRE (pyStrip citation) then some .supreme_court
    else none

/-- The `re.search` for a slip-op citation in the filename at the top of
`classify_document`; returns the matched citation text (`group(1)` spans
the whole match). -/
def extractCitation (filename : String) : Option String :=
  match reSearchSplit citationRE filename.data with
  | some pr => some ⟨pr.1.take (pr.1.length - pr.2.length)⟩
  | none => none

/-- `_verify_classification`: search the verification patterns of the
category (if it has any) in the first 2000 characters of the content. -/
def verifyClassification (ct : Category) (content : String) : Bool :=
  match verificationGroups.find? (fun g => decide (g.1 = ct)) with
  | some g => g.2.any (fun r => reSearch r (content.data.take 2000))
  | none => false

/-- Federal group score in `_classify_by_headers`: `+= 10` for each
pattern of the group that matches somewhere in the header text. -/
def scoreFederal (ps : List RE) (h : List Char) : Nat :=
  ps.foldl (fun acc r => if reSearch r h then acc + 10 else acc) 0

/-- State group score in `_classify_by_headers`: `+= 5 * len(findall)` for
each pattern of the group. -/
def scoreState (ps : List RE) (h : List Char) : Nat :=
  ps.foldl (fun acc r => acc + countMatches r h * 5) 0

/-- The `scores` dict of `_classify_by_headers`: federal groups first,
then state groups, keeping only strictly positive scores (keys of the
two dicts are disjoint, so list append models dict insertion). -/
def headerScores (headerText : String) : List (Category × Nat) :=
  (federalGroups.filterMap fun g =>
    if 0 < scoreFederal g.2 headerText.data then
      some (g.1, scoreFederal g.2 headerText.data) else none)
  ++ (headerGroups.filterMap fun g =>
    if 0 < scoreState g.2 headerText.data then
      some (g.1, scoreState g.2 headerText.data) else none)

/-- `max(scores.items(), key=lambda x: x[1])`: Python's `max` keeps the
first item when scores tie, replacing only on a strictly greater score. -/
def maxFirst (x : Category × Nat) : List (Category × Nat) → Category × Nat
  | [] => x
  | y :: ys => if x.2 < y.2 then maxFirst y ys else maxFirst x ys

/-- The best entry of a score table (`None` when the table is empty):
first in insertion order among maximal scores, as Python's `max`. -/
def bestEntry : List (Category × Nat) → Option (Category × Nat)
  | [] => none
  | x :: xs => some (maxFirst x xs)

/-- `_classify_by_headers`. -/
def classifyByHeaders (headerText : String) : Category × ℚ :=
  match bestEntry (headerScores headerText) with
  | none => (.unknown, 0)
  | some best => (best.1, min ((best.2 : ℚ) / 20) 1)

/-- The per-category `(score, pattern_matches)` accumulation of
`_classify_by_content`: `score += content_matches * 2` (counted in the
first 5000 characters) and `pattern_matches += 1` when the pattern occurs
in the content, `score += filename_matches * 3`; finally `score *= 1.5`
when more than 2 distinct patterns matched the content. -/
def contentScore (content5000 filename : List Char) (ps : List RE) : ℚ :=
  let acc := ps.foldl (fun (acc : ℚ × Nat) r =>
    let cm := countMatches r content5000
    let fm := countMatches r filename
    let acc1 : ℚ × ℕ := if 0 < cm then (acc.1 + cm * 2, acc.2 + 1) else acc
    (if 0 < fm then acc1.1 + fm * 3 else acc1.1, acc1.2)) ((0 : ℚ), (0 : ℕ))
  if 2 < acc.2 then acc.1 * (3 / 2) else acc.1

/-- The `scores` dict of `_classify_by_content`: every category of the
merged pattern dict gets an entry (scores of zero included). -/
def contentScores (content filename : String) : List (Category × ℚ) :=
  contentGroups.map fun g => (g.1, contentScore (content.data.take 5000) filename.data g.2)

/-- `_classify_by_content`.  The `scores` dict always has all eight
categories as keys, so the `if scores:` branch is always taken, and the
line `if len(sorted_scores) > 1` then raises `NameError`: `sorted_scores`
is never assigned in the function.  The code after that line
(`_disambiguate_courts` and the confidence computation) is unreachable. -/
def classifyByContent (content filename : String) : Except PyErr (Category × ℚ) :=
  match contentScores content filename with
  | [] => .ok (.unknown, 0)
  | _ :: _ => .error .nameErrorSortedScores

/-- `header_text = content[:2000] if content else ""` (for empty content
both branches give `""`; the truthiness test is `content = ""`). -/
def headerPrefixOf (content : String) : String :=
  if content = "" then "" else ⟨content.data.take 2000⟩

/-- Stages 2-4 of `classify_document`: header check on the first 2000
characters (returned when its category is not `unknown`), then
full-content analysis when content is non-empty, else
`('unknown', 0.0)`.  The Python `!=`/truthiness conditions appear with
both branches flipped. -/
def classifyTail (filename content : String) : Except PyErr (Category × ℚ) :=
  if (classifyByHeaders (headerPrefixOf content)).1 = Category.unknown then
    (if content = "" then .ok (Category.unknown, 0)
     else classifyByContent content filename)
  else .ok (classifyByHeaders (headerPrefixOf content))

/-- `classify_document` after text acquisition (`content` is the string
the Python variable holds once the `content is None` branch has run).
Stage 1: slip-op citation in the filename; on a non-null citation
category, return `(category, 0.95)` if the content verifies it,
`(category, 0.85)` if there is no content, and otherwise fall through to
the later stages. -/
def classifyCore (filePath content : String) : Except PyErr (Category × ℚ) :=
  match extractCitation (basename filePath) with
  | some citation =>
    match classifyBySlipOp citation with
    | some courtType =>
      if content = "" then .ok (courtType, mkRat 85 100)
      else if verifyClassification courtType content then .ok (courtType, mkRat 95 100)
      else classifyTail (basename filePath) content
    | none => classifyTail (basename filePath) content
  | none => classifyTail (basename filePath) content

/-- `classify_document(file_path, content)`: a `None` content is replaced
by `_extract_text(file_path)`, modelled by the extraction oracle
`extractText` (the Python `_extract_text` catches all exceptions and
returns a string, `""` on failure). -/
def classifyDocument (extractText : String → String) (filePath : String)
    (content : Option String) : Except PyErr (Category × ℚ) :=
  match content with
  | none => classifyCore filePath (extractText filePath)
  | some c => classifyCore filePath c

/-! The organizer. -/

/-- The next candidate name in the duplicate-handling loop of
`organize_document`: `f"(stem)_(counter)(suffix)"` where stem and suffix
are recomputed from the current candidate. -/
def nextName (name : String) (counter : Nat) : String :=
  (stemSuffix name).1 ++ "_" ++ natToStr counter ++ (stemSuffix name).2

/-- The `while target_path.exists()` loop, on the filename within the
fixed target directory `dir`; `fs` is the list of existing paths.  Fuel
`fs.length + 1` always suffices because each candidate is strictly longer
than the previous one. -/
def collideName (fs : List String) (dir : String) : Nat → Nat → String → String
  | 0, _, name => name
  | fuel + 1, counter, name =>
    if (dir ++ "/" ++ name) ∈ fs then
      collideName fs dir fuel (counter + 1) (nextName name counter)
    else name

/-- Duplicate handling of `organize_document`: starting from the original
filename with counter 1. -/
def resolveTarget (fs : List String) (dir name : String) : String :=
  collideName fs dir (fs.length + 1) 1 name

/-- The federal category list of `organize_document`. -/
def federalCats : List Category :=
  [.us_supreme_court, .second_circuit, .sdny, .edny]

/-- The jurisdiction computation of `organize_document`. -/
def jurisdictionOf (ct : Category) : String :=
  if ct ∈ federalCats then "federal" else "nys"

/-- The confident branch of `organize_document`: build the target
directory `base_dir/jurisdiction/court_type`, resolve duplicate names,
and move the file (the resulting filesystem and the returned path). -/
def organizeMove (fs : List String) (sourcePath baseDir : String)
    (courtType : Category) : List String × String :=
  let targetDir := baseDir ++ "/" ++ jurisdictionOf courtType ++ "/" ++ catName courtType
  let targetPath := targetDir ++ "/" ++ resolveTarget fs targetDir (basename sourcePath)
  (targetPath :: fs.erase sourcePath, targetPath)

/-- `organize_document(source_path, base_dir)`, over a filesystem `fs`
(list of existing paths) and the text-extraction oracle.  Classification
errors propagate (`classify_document` is called outside any handler).
With confidence below 0.5 the file stays put.  Otherwise the target is
`base_dir/jurisdiction/category/filename` with duplicate suffixes, and
the move (modelled as succeeding; the Python `except` branch around
`shutil.move` covers environmental I/O failure only) removes the source
path and creates the target. -/
def organizeDocument (extractText : String → String) (fs : List String)
    (sourcePath baseDir : String) : Except PyErr (List String × String) :=
  match classifyDocument extractText sourcePath none with
  | .error e => .error e
  | .ok (courtType, confidence) =>
    if confidence < mkRat 1 2 then .ok (fs, sourcePath)
    else .ok (organizeMove fs sourcePath baseDir courtType)

/-! Helper lemmas. -/

/-- A category returned by the pattern-table scan is a key of the table. -/
theorem findCat_mem {cit : List Char} :
    ∀ {l : List (Category × List RE)} {c : Category},
      findCat cit l = some c → ∃ ps, (c, ps) ∈ l := by
  intro l
  induction l with
  | nil => intro c h; simp [findCat] at h
  | cons g rest ih =>
    intro c h
    by_cases hm : g.2.any (fun r => reSearch r cit) = true
    · simp [findCat, hm] at h
      exact ⟨g.2, by simp [← h]⟩
    · simp [findCat, hm] at h
      obtain ⟨ps, hps⟩ := ih h
      exact ⟨ps, by simp [hps]⟩

/-- `_classify_by_slip_op` only ever returns one of the three state
categories of its pattern table. -/
theorem slipOp_cases {cit : String} {ct : Category}
    (h : classifyBySlipOp cit = some ct) :
    ct = .court_of_appeals ∨ ct = .appellate_division ∨ ct = .supreme_court := by
  unfold classifyBySlipOp at h
  cases hf : findCat cit.data slipOpGroups with
  | some c =>
    rw [hf] at h
    obtain ⟨ps, hps⟩ := findCat_mem hf
    simp only [Option.some.injEq] at h
    subst h
    simp [slipOpGroups] at hps
    rcases hps with ⟨hc, _⟩ | ⟨hc, _⟩ | ⟨hc, _⟩ <;> simp [hc]
  | none =>
    rw [hf] at h
    by_cases h1 : substrB "(U)" cit = true <;>
    by_cases h2 : (substrB "Dept" cit || substrB "Department" cit) = true <;>
    by_cases h3 : reMatchB zeroSlipRE (pyStrip cit) = true <;>
    by_cases h4 : reMatchB nonzeroSlipRE (pyStrip cit) = true <;>
    simp [h1, h2, h3, h4] at h <;>
    simp [← h]

/-- `_classify_by_content` always raises: the merged pattern dict always
yields eight score entries, so the non-empty branch with the unassigned
`sorted_scores` variable is always reached. -/
theorem classifyByContent_err (content filename : String) :
    classifyByContent content filename = .error .nameErrorSortedScores := by
  simp [classifyByContent, contentScores, contentGroups]

/-- `maxFirst x l` is one of `x :: l`. -/
theorem maxFirst_mem : ∀ (l : List (Category × Nat)) (x : Category × Nat),
    maxFirst x l ∈ x :: l := by
  intro l
  induction l with
  | nil => intro x; simp [maxFirst]
  | cons y ys ih =>
    intro x
    unfold maxFirst
    split
    · have := ih y; rcases List.mem_cons.mp this with h | h <;> simp [h]
    · have := ih x; rcases List.mem_cons.mp this with h | h <;> simp [h]

/-- The score of `maxFirst x l` dominates the head `x`. -/
theorem maxFirst_ge_head : ∀ (l : List (Category × Nat)) (x : Category × Nat),
    x.2 ≤ (maxFirst x l).2 := by
  intro l
  induction l with
  | nil => intro x; simp [maxFirst]
  | cons y ys ih =>
    intro x
    unfold maxFirst
    split
    · exact le_trans (le_of_lt (by assumption)) (ih y)
    · exact ih x

/-- The score of `maxFirst x l` dominates every element of `l`. -/
theorem maxFirst_ge_mem : ∀ (l : List (Category × Nat)) (x p : Category × Nat),
    p ∈ l → p.2 ≤ (maxFirst x l).2 := by
  intro l
  induction l with
  | nil => intro x p hp; simp at hp
  | cons y ys ih =>
    intro x p hp
    unfold maxFirst
    rcases List.mem_cons.mp hp with h | h
    · subst h
      split
      · exact maxFirst_ge_head ys p
      · exact le_trans (by omega) (maxFirst_ge_head ys x)
    · split
      · exact ih y p h
      · exact ih x p h

/-- `maxFirst x l` has the greatest score of `x :: l`. -/
theorem maxFirst_ge : ∀ (l : List (Category × Nat)) (x p : Category × Nat),
    p ∈ x :: l → p.2 ≤ (maxFirst x l).2 := by
  intro l x p hp
  rcases List.mem_cons.mp hp with h | h
  · subst h; exact maxFirst_ge_head l p
  · exact maxFirst_ge_mem l x p h

/-- The best entry of a nonempty score table belongs to the table. -/
theorem bestEntry_mem : ∀ {l : List (Category × Nat)} {b : Category × Nat},
    bestEntry l = some b → b ∈ l := by
  intro l b h
  cases l with
  | nil => exact Option.noConfusion h
  | cons x xs =>
    injection h with h2
    subst h2
    exact maxFirst_mem xs x

/-- The best entry of a score table dominates every entry. -/
theorem bestEntry_ge : ∀ {l : List (Category × Nat)} {b : Category × Nat},
    bestEntry l = some b → ∀ p ∈ l, p.2 ≤ b.2 := by
  intro l b h p hp
  cases l with
  | nil => exact Option.noConfusion h
  | cons x xs =>
    injection h with h2
    subst h2
    exact maxFirst_ge xs x p hp

/-- Every entry of the header score table has a positive score and a
category drawn from the federal or state pattern tables (never
`unknown`). -/
theorem headerScores_entry {h : String} {p : Category × Nat}
    (hp : p ∈ headerScores h) : 0 < p.2 ∧ p.1 ≠ Category.unknown := by
  unfold headerScores at hp
  rcases List.mem_append.mp hp with hf | hs
  · obtain ⟨g, hg, hfg⟩ := List.mem_filterMap.mp hf
    split at hfg
    · rename_i hpos
      injection hfg with h2
      subst h2
      refine ⟨hpos, ?_⟩
      simp [federalGroups] at hg
      rcases hg with h1 | h1 | h1 | h1 <;> simp [h1]
    · exact Option.noConfusion hfg
  · obtain ⟨g, hg, hfg⟩ := List.mem_filterMap.mp hs
    split at hfg
    · rename_i hpos
      injection hfg with h2
      subst h2
      refine ⟨hpos, ?_⟩
      simp [headerGroups] at hg
      rcases hg with h1 | h1 | h1 | h1 <;> simp [h1]
    · exact Option.noConfusion hfg

/-- When the header classifier does not answer `unknown`, its confidence
is strictly positive. -/
theorem classifyByHeaders_pos {h : String}
    (hne : (classifyByHeaders h).1 ≠ Category.unknown) :
    0 < (classifyByHeaders h).2 := by
  cases hb : bestEntry (headerScores h) with
  | none => exact absurd (by simp [classifyByHeaders, hb]) hne
  | some b =>
    have hmem : b ∈ headerScores h := bestEntry_mem hb
    have hpos := (headerScores_entry hmem).1
    have h20 : (0 : ℚ) < (b.2 : ℚ) / 20 := by
      apply div_pos _ (by norm_num)
      exact_mod_cast hpos
    simp only [classifyByHeaders, hb]
    exact lt_min h20 (by norm_num)

/-- The header classifier returns `unknown` exactly on confidence zero. -/
theorem classifyByHeaders_unknown_iff (h : String) :
    (classifyByHeaders h).1 = Category.unknown ↔ (classifyByHeaders h).2 = 0 := by
  constructor
  · intro hu
    cases hb : bestEntry (headerScores h) with
    | none => simp [classifyByHeaders, hb]
    | some b =>
      rw [classifyByHeaders, hb] at hu
      exact absurd hu ((headerScores_entry (bestEntry_mem hb)).2)
  · intro hq
    by_contra hu
    exact absurd hq (ne_of_gt (classifyByHeaders_pos hu))

/-- Any `ok` result of the tail stages satisfies the unknown-iff-zero
invariant. -/
theorem classifyTail_ok {fn c : String} {cat : Category} {conf : ℚ}
    (h : classifyTail fn c = .ok (cat, conf)) :
    (cat = Category.unknown ↔ conf = 0) := by
  unfold classifyTail at h
  split at h
  · split at h
    · simp only [Except.ok.injEq, Prod.mk.injEq] at h
      simp [← h.1, ← h.2]
    · rw [classifyByContent_err] at h
      exact Except.noConfusion h
  · rename_i hne
    simp only [Except.ok.injEq] at h
    have h1 : cat = (classifyByHeaders (headerPrefixOf c)).1 := by rw [h]
    have h2 : conf = (classifyByHeaders (headerPrefixOf c)).2 := by rw [h]
    subst h1; subst h2
    constructor
    · intro hu; exact absurd hu hne
    · intro hz
      exact absurd hz (ne_of_gt (classifyByHeaders_pos hne))

/-- The slip-op short-circuit branch of `classify_document` preserves the
unknown-iff-zero invariant whenever the citation category is not
`unknown`. -/
theorem slipBranch_ok {fn c : String} {ct cat : Category} {conf : ℚ}
    (hct : ct ≠ Category.unknown)
    (h : (if c = "" then Except.ok (ct, mkRat 85 100)
          else if verifyClassification ct c then Except.ok (ct, mkRat 95 100)
          else classifyTail fn c) = Except.ok (cat, conf)) :
    (cat = Category.unknown ↔ conf = 0) := by
  split at h
  · simp only [Except.ok.injEq, Prod.mk.injEq] at h
    rw [← h.1, ← h.2]
    constructor
    · intro hu; exact absurd hu hct
    · intro hz; exact absurd hz (by decide)
  · split at h
    · simp only [Except.ok.injEq, Prod.mk.injEq] at h
      rw [← h.1, ← h.2]
      constructor
      · intro hu; exact absurd hu hct
      · intro hz; exact absurd hz (by decide)
    · exact classifyTail_ok h

/-! Claim theorems and witnesses. -/

/-- C1 (code_bug evidence): `classify_document` does not always return a
result.  On the file path `"doc.txt"` with content `"hello"` — content in
which no pattern matches at all, where the claim requires the value
`(unknown, 0.0)` — the slip-op and header stages are inconclusive, the
content stage runs, and the unassigned-variable read `sorted_scores`
raises a `NameError`. -/
theorem c1_classify_raises_nameError :
    classifyCore "doc.txt" "hello" = .error PyErr.nameErrorSortedScores := rfl

/-- C3 (code_bug evidence): for a bare 5-digit slip-op citation the first
`court_of_appeals` slip-op pattern (`\d4 NY Slip Op \d5` not followed by a
parenthesis) always matches, so the citation stage returns
`court_of_appeals` both for a leading-zero op number (the claim requires
null) and for an op number starting with 1-9 (the claim requires
`supreme_court`); the leading-digit fallback rules are unreachable. -/
theorem c3_bare_citation_is_court_of_appeals :
    classifyBySlipOp "2020 NY Slip Op 02768" = some Category.court_of_appeals ∧
    classifyBySlipOp "2019 NY Slip Op 29372" = some Category.court_of_appeals :=
  ⟨rfl, rfl⟩

/-- C4: whenever `classify_document` returns a result, the category is
`unknown` exactly when the confidence is `0.0`. -/
theorem c4_unknown_iff_zero (p c : String) (cat : Category) (conf : ℚ)
    (h : classifyCore p c = .ok (cat, conf)) :
    (cat = Category.unknown ↔ conf = 0) := by
  unfold classifyCore at h
  cases hex : extractCitation (basename p) with
  | none => rw [hex] at h; exact classifyTail_ok h
  | some cit =>
    rw [hex] at h
    have h2 : (match classifyBySlipOp cit with
      | some courtType =>
        if c = "" then Except.ok (courtType, mkRat 85 100)
        else if verifyClassification courtType c then Except.ok (courtType, mkRat 95 100)
        else classifyTail (basename p) c
      | none => classifyTail (basename p) c) = Except.ok (cat, conf) := h
    cases hsl : classifyBySlipOp cit with
    | none => rw [hsl] at h2; exact classifyTail_ok h2
    | some ct =>
      rw [hsl] at h2
      have hct : ct ≠ Category.unknown := by
        rcases slipOp_cases hsl with h3 | h3 | h3 <;> simp [h3]
      exact slipBranch_ok hct h2

/-- C4 witness: a path and empty content with no matching pattern yield
`(unknown, 0.0)`, where both sides of the equivalence hold. -/
theorem c4_unknown_iff_zero_witness :
    (Category.unknown = Category.unknown ↔ (0 : ℚ) = 0) :=
  c4_unknown_iff_zero "a.doc" "" Category.unknown 0 rfl

/-- C9: the classifier is a pure function of the `(path, text)` pair and
its immutable pattern tables (built once in `__init__` and never
mutated), so two calls on the same pair give identical results. -/
theorem c9_deterministic (extractText : String → String) (p : String)
    (c : Option String) :
    classifyDocument extractText p c = classifyDocument extractText p c := rfl

/-- C10: the slip-op citation stage returns null or one of the three state
categories of its pattern table — never a federal category, never
`civil_court`, never `unknown`. -/
theorem c10_slipop_range (cit : String) :
    classifyBySlipOp cit = none ∨
    classifyBySlipOp cit = some Category.court_of_appeals ∨
    classifyBySlipOp cit = some Category.appellate_division ∨
    classifyBySlipOp cit = some Category.supreme_court := by
  cases h : classifyBySlipOp cit with
  | none => exact Or.inl rfl
  | some ct => rcases slipOp_cases h with h2 | h2 | h2 <;> subst h2 <;> simp

/-- C2 counterexample: the Carbonara filename's citation classifies as
`supreme_court`, the non-empty body `"hello"` does not satisfy any
verification phrase, and `classify_document` then does **not** return
`(supreme_court, 0.85)` as the claim states: the slip-op stage falls
through, and on this input the content stage raises. -/
theorem c2_unverified_falls_through :
    extractCitation (basename "Carbonara v Bank of N.Y. Mellon Corp. (2014 NY Slip Op 51135(U)).pdf")
      = some "2014 NY Slip Op 51135(U)" ∧
    classifyBySlipOp "2014 NY Slip Op 51135(U)" = some Category.supreme_court ∧
    verifyClassification Category.supreme_court "hello" = false ∧
    classifyCore "Carbonara v Bank of N.Y. Mellon Corp. (2014 NY Slip Op 51135(U)).pdf" "hello"
      = .error PyErr.nameErrorSortedScores ∧
    classifyCore "Carbonara v Bank of N.Y. Mellon Corp. (2014 NY Slip Op 51135(U)).pdf" "hello"
      ≠ .ok (Category.supreme_court, mkRat 85 100) ∧
    classifyCore "Carbonara v Bank of N.Y. Mellon Corp. (2014 NY Slip Op 51135(U)).pdf" "hello"
      ≠ .ok (Category.supreme_court, mkRat 95 100) := by
  refine ⟨rfl, rfl, rfl, rfl, ?_, ?_⟩ <;>
  · intro hcon
    rw [(rfl : classifyCore "Carbonara v Bank of N.Y. Mellon Corp. (2014 NY Slip Op 51135(U)).pdf" "hello"
      = .error PyErr.nameErrorSortedScores)] at hcon
    exact Except.noConfusion hcon

/-- C2 amended: when the filename citation yields a category, the
short-circuit returns `(category, 0.85)` for empty (or absent) content and
`(category, 0.95)` for content matching a verification phrase; for
non-empty content that fails verification the stage does not return at
all and classification falls through to the header/content stages. -/
theorem c2_slip_shortcircuit_amended (p c cit : String) (ct : Category)
    (hex : extractCitation (basename p) = some cit)
    (hsl : classifyBySlipOp cit = some ct) :
    (c = "" → classifyCore p c = .ok (ct, mkRat 85 100)) ∧
    (c ≠ "" → verifyClassification ct c = true →
      classifyCore p c = .ok (ct, mkRat 95 100)) ∧
    (c ≠ "" → verifyClassification ct c = false →
      classifyCore p c = classifyTail (basename p) c) := by
  refine ⟨fun hc => ?_, fun hc hv => ?_, fun hc hv => ?_⟩ <;>
    (unfold classifyCore; rw [hex]) <;>
    simp [hsl, hc]
  · simp [hv]
  · simp [hv]

/-- C2 witness: with the Carbonara filename and no content, the
short-circuit answers `(supreme_court, 0.85)`. -/
theorem c2_slip_shortcircuit_witness :
    classifyCore "Carbonara v Bank of N.Y. Mellon Corp. (2014 NY Slip Op 51135(U)).pdf" ""
      = .ok (Category.supreme_court, mkRat 85 100) :=
  (c2_slip_shortcircuit_amended
    "Carbonara v Bank of N.Y. Mellon Corp. (2014 NY Slip Op 51135(U)).pdf" ""
    "2014 NY Slip Op 51135(U)" Category.supreme_court rfl rfl).1 rfl

/-- C8 counterexample: a filename whose extracted citation carries a
`(U)` marker but a six-digit op number.  The first `court_of_appeals`
slip-op pattern matches (its lookahead sees the sixth digit, not the
parenthesis), so the citation stage returns `court_of_appeals`, not
`supreme_court` as the claim states for every `(U)` filename. -/
theorem c8_six_digit_u_not_supreme :
    extractCitation (basename "X (2014 NY Slip Op 511350(U)).pdf")
      = some "2014 NY Slip Op 511350(U)" ∧
    substrB "(U)" "2014 NY Slip Op 511350(U)" = true ∧
    classifyBySlipOp "2014 NY Slip Op 511350(U)" = some Category.court_of_appeals ∧
    Category.court_of_appeals ≠ Category.supreme_court :=
  ⟨rfl, rfl, rfl, by decide⟩

/-- C8 amended: a citation containing `(U)` classifies as `supreme_court`
provided no `court_of_appeals` and no `appellate_division` slip-op pattern
matches it first (the table is scanned in that order before the `(U)`
fallback); and the Carbonara scenario holds with confidence 0.85 when no
content is given. -/
theorem c8_u_marker_amended :
    (∀ cit : String,
      slipCoA.any (fun r => reSearch r cit.data) = false →
      slipAD.any (fun r => reSearch r cit.data) = false →
      substrB "(U)" cit = true →
      classifyBySlipOp cit = some Category.supreme_court) ∧
    classifyCore "Carbonara v Bank of N.Y. Mellon Corp. (2014 NY Slip Op 51135(U)).pdf" ""
      = .ok (Category.supreme_court, mkRat 85 100) := by
  refine ⟨fun cit h1 h2 hu => ?_, rfl⟩
  by_cases h3 : slipSup.any (fun r => reSearch r cit.data) = true
  · simp [classifyBySlipOp, findCat, slipOpGroups, h1, h2, h3]
  · simp [classifyBySlipOp, findCat, slipOpGroups, h1, h2, h3, hu]

/-- C8 witness: the Carbonara citation has a five-digit op number, no
earlier pattern matches, and the amended rule yields `supreme_court`. -/
theorem c8_u_marker_witness :
    classifyBySlipOp "2014 NY Slip Op 51135(U)" = some Category.supreme_court :=
  c8_u_marker_amended.1 "2014 NY Slip Op 51135(U)" rfl rfl rfl

/-- C7: the header classifier's score table contains exactly the federal
groups scored 10 per matching rule and the state groups scored 5 per
non-overlapping match, zero scores excluded; a nonempty table yields its
(first) maximal entry with confidence `min(score / 20, 1)`, an empty one
yields `(unknown, 0.0)`. -/
theorem c7_header_scoring (h : String) :
    (headerScores h = [] → classifyByHeaders h = (Category.unknown, 0)) ∧
    (∀ x xs, headerScores h = x :: xs →
      maxFirst x xs ∈ headerScores h ∧
      0 < (maxFirst x xs).2 ∧
      (∀ p ∈ headerScores h, p.2 ≤ (maxFirst x xs).2) ∧
      classifyByHeaders h = ((maxFirst x xs).1, min (((maxFirst x xs).2 : ℚ) / 20) 1)) ∧
    (∀ c s, (c, s) ∈ headerScores h ↔
      ((∃ g ∈ federalGroups, g.1 = c ∧ s = scoreFederal g.2 h.data ∧ 0 < s) ∨
       (∃ g ∈ headerGroups, g.1 = c ∧ s = scoreState g.2 h.data ∧ 0 < s))) := by
  refine ⟨fun hsc => by simp [classifyByHeaders, bestEntry, hsc], ?_, ?_⟩
  · intro x xs hsc
    have hmem : maxFirst x xs ∈ headerScores h := by
      rw [hsc]; exact maxFirst_mem xs x
    refine ⟨hmem, (headerScores_entry hmem).1, ?_, ?_⟩
    · intro p hp
      rw [hsc] at hp
      exact maxFirst_ge xs x p hp
    · simp [classifyByHeaders, bestEntry, hsc]
  · intro c s
    unfold headerScores
    constructor
    · intro hm
      rcases List.mem_append.mp hm with hf | hst
      · obtain ⟨g, hg, hfg⟩ := List.mem_filterMap.mp hf
        split at hfg
        · rename_i hpos
          injection hfg with h2
          have hc : g.1 = c := congrArg Prod.fst h2
          have hs2 : scoreFederal g.2 h.data = s := congrArg Prod.snd h2
          exact Or.inl ⟨g, hg, hc, hs2.symm, hs2 ▸ hpos⟩
        · exact Option.noConfusion hfg
      · obtain ⟨g, hg, hfg⟩ := List.mem_filterMap.mp hst
        split at hfg
        · rename_i hpos
          injection hfg with h2
          have hc : g.1 = c := congrArg Prod.fst h2
          have hs2 : scoreState g.2 h.data = s := congrArg Prod.snd h2
          exact Or.inr ⟨g, hg, hc, hs2.symm, hs2 ▸ hpos⟩
        · exact Option.noConfusion hfg
    · intro hor
      rcases hor with ⟨g, hg, hc, hs2, hpos⟩ | ⟨g, hg, hc, hs2, hpos⟩
      · refine List.mem_append.mpr (Or.inl (List.mem_filterMap.mpr ⟨g, hg, ?_⟩))
        rw [if_pos (hs2 ▸ hpos), hc, ← hs2]
      · refine List.mem_append.mpr (Or.inr (List.mem_filterMap.mpr ⟨g, hg, ?_⟩))
        rw [if_pos (hs2 ▸ hpos), hc, ← hs2]

/-- C7 witness: an empty header yields `(unknown, 0.0)`; a Court of
Appeals caption scores 10 (two state rules at 5 each) and wins with
confidence `10/20`. -/
theorem c7_header_scoring_witness :
    classifyByHeaders "" = (Category.unknown, 0) ∧
    classifyByHeaders "In the Court of Appeals of the State of New York" =
      ((maxFirst (Category.court_of_appeals, 10) []).1,
        min (((maxFirst (Category.court_of_appeals, 10) []).2 : ℚ) / 20) 1) :=
  ⟨(c7_header_scoring "").1 rfl,
   ((c7_header_scoring "In the Court of Appeals of the State of New York").2.1
      (Category.court_of_appeals, 10) [] rfl).2.2.2⟩

/-! Path and collision-handling lemmas. -/

/-- `basename` never contains a slash. -/
theorem basename_no_slash (s : String) : '/' ∉ (basename s).data := by
  intro hmem
  unfold basename at hmem
  rw [List.mem_reverse] at hmem
  have h := List.mem_takeWhile_imp hmem
  simp at h

/-- A decimal digit character is not a slash. -/
theorem digitChar_ne_slash {m : Nat} (hm : m < 10) : Char.ofNat (48 + m) ≠ '/' := by
  interval_cases m <;> decide

/-- Every character produced by the decimal renderer is either from the
accumulator or a digit character. -/
theorem natDigitsAux_mem : ∀ {fuel n : Nat} {acc : List Char} {c : Char},
    c ∈ natDigitsAux fuel n acc →
    c ∈ acc ∨ ∃ m : Nat, m < 10 ∧ c = Char.ofNat (48 + m) := by
  intro fuel
  induction fuel with
  | zero => intro n acc c hc; exact Or.inl hc
  | succ f ih =>
    intro n acc c hc
    unfold natDigitsAux at hc
    split at hc
    · rcases List.mem_cons.mp hc with h | h
      · exact Or.inr ⟨n % 10, Nat.mod_lt _ (by omega), h⟩
      · exact Or.inl h
    · rcases ih hc with h | h
      · rcases List.mem_cons.mp h with h2 | h2
        · exact Or.inr ⟨n % 10, Nat.mod_lt _ (by omega), h2⟩
        · exact Or.inl h2
      · exact Or.inr h

/-- The decimal rendering of a counter contains no slash. -/
theorem natToStr_no_slash (n : Nat) : '/' ∉ (natToStr n).data := by
  intro hmem
  rcases natDigitsAux_mem hmem with h | ⟨m, hm, hc⟩
  · simp at h
  · exact digitChar_ne_slash hm hc.symm

/-- The decimal renderer never shrinks its accumulator. -/
theorem natDigitsAux_len : ∀ {fuel n : Nat} {acc : List Char},
    acc.length ≤ (natDigitsAux fuel n acc).length := by
  intro fuel
  induction fuel with
  | zero => intro n acc; exact le_refl _
  | succ f ih =>
    intro n acc
    unfold natDigitsAux
    split
    · simp
    · exact le_trans (by simp) ih

/-- The decimal rendering of a counter is nonempty. -/
theorem natToStr_pos (n : Nat) : 0 < (natToStr n).data.length := by
  show 0 < (natDigitsAux (n + 1) n []).length
  unfold natDigitsAux
  split
  · simp
  · exact lt_of_lt_of_le (by simp) natDigitsAux_len

/-- `stemSuffix` either splits the name or returns it unchanged with an
empty suffix. -/
theorem stemSuffix_split (name : String) :
    (stemSuffix name).1.data ++ (stemSuffix name).2.data = name.data ∨
    ((stemSuffix name).1 = name ∧ (stemSuffix name).2 = "") := by
  unfold stemSuffix
  split
  · split
    · exact Or.inl (List.take_append_drop _ _)
    · simp
  · simp

/-- Stem and suffix contain no slash when the name contains none. -/
theorem stemSuffix_no_slash {name : String} (h : '/' ∉ name.data) :
    '/' ∉ (stemSuffix name).1.data ∧ '/' ∉ (stemSuffix name).2.data := by
  unfold stemSuffix
  split
  · split
    · constructor
      · intro hmem; exact h (List.take_subset _ _ hmem)
      · intro hmem; exact h (List.drop_subset _ _ hmem)
    · exact ⟨h, by simp⟩
  · exact ⟨h, by simp⟩

/-- The next collision candidate contains no slash when the current name
contains none. -/
theorem nextName_no_slash {name : String} (h : '/' ∉ name.data) (c : Nat) :
    '/' ∉ (nextName name c).data := by
  unfold nextName
  intro hmem
  rw [String.data_append, String.data_append, String.data_append] at hmem
  rcases List.mem_append.mp hmem with h1 | h1
  · rcases List.mem_append.mp h1 with h2 | h2
    · rcases List.mem_append.mp h2 with h3 | h3
      · exact (stemSuffix_no_slash h).1 h3
      · simp at h3
    · exact natToStr_no_slash c h2
  · exact (stemSuffix_no_slash h).2 h1

/-- The next collision candidate is strictly longer than the current
name. -/
theorem nextName_longer (name : String) (c : Nat) :
    name.data.length < (nextName name c).data.length := by
  unfold nextName
  rw [String.data_append, String.data_append, String.data_append]
  simp only [List.length_append]
  have hu : ("_" : String).data.length = 1 := rfl
  have hpos := natToStr_pos c
  rcases stemSuffix_split name with hsp | ⟨h1, h2⟩
  · have hsum : (stemSuffix name).1.data.length + (stemSuffix name).2.data.length
        = name.data.length := by
      rw [← List.length_append, hsp]
    omega
  · rw [h1, h2]
    simp only [hu]
    have : ("" : String).data.length = 0 := rfl
    omega

/-- Filtering with a weaker predicate keeps at least as many elements. -/
theorem length_filter_mono {α : Type} (p q : α → Bool)
    (hpq : ∀ a, q a = true → p a = true) :
    ∀ l : List α, (l.filter q).length ≤ (l.filter p).length := by
  intro l
  induction l with
  | nil => simp
  | cons a t ih =>
    rw [List.filter_cons, List.filter_cons]
    by_cases hq : q a = true
    · rw [if_pos hq, if_pos (hpq a hq)]
      simpa using ih
    · rw [if_neg hq]
      by_cases hp : p a = true
      · rw [if_pos hp]
        exact le_trans ih (by simp)
      · rw [if_neg hp]
        exact ih

/-- Filtering with a strictly weaker predicate (witnessed by an element
satisfying only the stronger one) keeps strictly more elements. -/
theorem length_filter_lt {α : Type} (p q : α → Bool)
    (hpq : ∀ a, q a = true → p a = true) (l : List α) (x : α) (hx : x ∈ l)
    (hpx : p x = true) (hqx : q x = false) :
    (l.filter q).length < (l.filter p).length := by
  induction l with
  | nil => simp at hx
  | cons a t ih =>
    rw [List.filter_cons, List.filter_cons]
    rcases List.mem_cons.mp hx with h | h
    · subst h
      rw [if_pos hpx, if_neg (by simp [hqx])]
      have := length_filter_mono p q hpq t
      simp only [List.length_cons]
      omega
    · have hlt := ih h
      by_cases hq : q a = true
      · rw [if_pos hq, if_pos (hpq a hq)]
        simpa using hlt
      · rw [if_neg hq]
        by_cases hp : p a = true
        · rw [if_pos hp]
          simp only [List.length_cons]
          omega
        · rw [if_neg hp]
          exact hlt

/-- Correctness of the duplicate-handling loop: with fuel exceeding the
number of existing paths at least as long as the current candidate, the
chosen name's full path is free, and it stays slash-free.  Termination
argument: each iteration's candidate is strictly longer, so it excludes
one more of the (finitely many) occupied paths. -/
theorem collideName_spec : ∀ (fuel : Nat) (fs : List String) (dir : String)
    (counter : Nat) (name : String),
    (fs.filter (fun q => decide ((dir ++ "/" ++ name).length ≤ q.length))).length < fuel →
    '/' ∉ name.data →
    (dir ++ "/" ++ collideName fs dir fuel counter name) ∉ fs ∧
    '/' ∉ (collideName fs dir fuel counter name).data := by
  intro fuel
  induction fuel with
  | zero => intro fs dir counter name hf _; exact absurd hf (Nat.not_lt_zero _)
  | succ f ih =>
    intro fs dir counter name hf hns
    unfold collideName
    split
    · rename_i hmem
      apply ih
      · have hlen : (dir ++ "/" ++ name).length
            < (dir ++ "/" ++ nextName name counter).length := by
          rw [String.length_append, String.length_append,
              String.length_append, String.length_append]
          have h1 : name.length = name.data.length := rfl
          have h2 : (nextName name counter).length
              = (nextName name counter).data.length := rfl
          have := nextName_longer name counter
          omega
        have hcard := length_filter_lt
          (fun q => decide ((dir ++ "/" ++ name).length ≤ q.length))
          (fun q => decide ((dir ++ "/" ++ nextName name counter).length ≤ q.length))
          (fun a ha => by
            simp only [decide_eq_true_eq] at ha ⊢
            omega)
          fs (dir ++ "/" ++ name) hmem
          (by simp only [decide_eq_true_eq]; omega)
          (by simp only [decide_eq_false_iff_not]; omega)
        omega
      · exact nextName_no_slash hns counter
    · rename_i hmem
      exact ⟨hmem, hns⟩

/-- The name chosen by the organizer's duplicate handling never collides
with an existing path, and contains no slash when the filename does
not. -/
theorem resolveTarget_spec (fs : List String) (dir name : String)
    (hns : '/' ∉ name.data) :
    (dir ++ "/" ++ resolveTarget fs dir name) ∉ fs ∧
    '/' ∉ (resolveTarget fs dir name).data := by
  apply collideName_spec
  · have := List.length_filter_le
      (fun q => decide ((dir ++ "/" ++ name).length ≤ q.length)) fs
    omega
  · exact hns

/-- Dropping a satisfied-everywhere prefix skips it entirely. -/
theorem dropWhile_append_all {p : Char → Bool} : ∀ {xs ys : List Char},
    (∀ x ∈ xs, p x = true) → (xs ++ ys).dropWhile p = ys.dropWhile p := by
  intro xs
  induction xs with
  | nil => intro ys _; simp
  | cons a t ih =>
    intro ys h
    rw [List.cons_append, List.dropWhile_cons]
    rw [if_pos (h a (by simp))]
    exact ih (fun x hx => h x (by simp [hx]))

/-- The parent of `dir ++ "/" ++ name` is `dir` for a slash-free name. -/
theorem parentOf_append {d n : String} (h : '/' ∉ n.data) :
    parentOf (d ++ "/" ++ n) = d := by
  apply String.ext
  show (((d ++ "/" ++ n).data.reverse.dropWhile (fun c => !(c == '/'))).drop 1).reverse
      = d.data
  rw [String.data_append, String.data_append]
  have hslash : ("/" : String).data = ['/'] := rfl
  rw [hslash, List.reverse_append, List.reverse_append]
  rw [dropWhile_append_all (fun x hx => by
    rw [List.mem_reverse] at hx
    have hne : x ≠ '/' := fun he => h (he ▸ hx)
    simp [hne])]
  simp [List.dropWhile_cons]

/-- C5 counterexample: with `doc.pdf` and `doc_1.pdf` both present, the
claimed `_1, _2, …` scheme would pick the free name `doc_2.pdf`, but the
loop recomputes the stem from the current candidate and chooses
`doc_1_2.pdf` instead. -/
theorem c5_suffix_accumulates :
    resolveTarget ["d/doc.pdf", "d/doc_1.pdf"] "d" "doc.pdf" = "doc_1_2.pdf" ∧
    "doc_1_2.pdf" ≠ "doc_2.pdf" ∧
    "d/doc_2.pdf" ∉ ["d/doc.pdf", "d/doc_1.pdf"] :=
  ⟨rfl, by decide, by decide⟩

/-- C5 amended: the duplicate-handling loop appends `_counter` to the
current candidate's stem each round (producing `stem_1`, `stem_1_2`,
`stem_1_2_3`, …, not `stem_1`, `stem_2`, …); it is deterministic, the
chosen full path never collides with an existing file, and organizing a
second colliding source after the first has been moved yields a distinct
final name. -/
theorem c5_collision_amended (fs : List String) (dir name : String)
    (hns : '/' ∉ name.data) :
    (dir ++ "/" ++ resolveTarget fs dir name) ∉ fs ∧
    resolveTarget ((dir ++ "/" ++ resolveTarget fs dir name) :: fs) dir name ≠
      resolveTarget fs dir name := by
  refine ⟨(resolveTarget_spec fs dir name hns).1, ?_⟩
  intro heq
  have h2 := (resolveTarget_spec ((dir ++ "/" ++ resolveTarget fs dir name) :: fs)
    dir name hns).1
  rw [heq] at h2
  exact h2 (List.mem_cons_self _ _)

/-- C5 witness: a concrete collision; the resolved path is free and a
second colliding organize gets a different name. -/
theorem c5_collision_witness :
    ('/' ∉ "doc.pdf".data) ∧
    (("d" ++ "/" ++ resolveTarget ["d/doc.pdf"] "d" "doc.pdf") ∉ ["d/doc.pdf"] ∧
     resolveTarget (("d" ++ "/" ++ resolveTarget ["d/doc.pdf"] "d" "doc.pdf") :: ["d/doc.pdf"])
        "d" "doc.pdf" ≠ resolveTarget ["d/doc.pdf"] "d" "doc.pdf") :=
  ⟨by decide, c5_collision_amended ["d/doc.pdf"] "d" "doc.pdf" (by decide)⟩

/-- C6: when `organize_document` returns, a sub-threshold confidence
leaves the filesystem and path unchanged, and a confidence of at least
0.5 places the file under `base_dir/jurisdiction/category`, with
jurisdiction `federal` exactly for the four federal categories and `nys`
otherwise. -/
theorem c6_organize_paths (extractText : String → String) (fs : List String)
    (source base : String) (cat : Category) (conf : ℚ)
    (out : List String × String)
    (hc : classifyDocument extractText source none = .ok (cat, conf))
    (ho : organizeDocument extractText fs source base = .ok out) :
    (conf < mkRat 1 2 → out = (fs, source)) ∧
    (¬ conf < mkRat 1 2 →
      parentOf out.2 = base ++ "/" ++ jurisdictionOf cat ++ "/" ++ catName cat ∧
      (jurisdictionOf cat = "federal" ↔ cat ∈ federalCats)) := by
  unfold organizeDocument at ho
  rw [hc] at ho
  have ho2 : (if conf < mkRat 1 2 then Except.ok (fs, source)
      else Except.ok (organizeMove fs source base cat)) = Except.ok out := ho
  constructor
  · intro hlow
    rw [if_pos hlow] at ho2
    exact (Except.ok.inj ho2).symm
  · intro hhigh
    rw [if_neg hhigh] at ho2
    have h2 := Except.ok.inj ho2
    constructor
    · rw [← h2]
      exact parentOf_append
        (resolveTarget_spec fs _ (basename source) (basename_no_slash source)).2
    · by_cases hm : cat ∈ federalCats <;> simp [jurisdictionOf, hm]

/-- C6 witness: organizing the Carbonara file (no extractable text, empty
filesystem) classifies at confidence 0.85 and lands under
`database/cases/nys/supreme_court`. -/
theorem c6_organize_witness :
    parentOf ("database/cases/nys/supreme_court/Carbonara v Bank of N.Y. Mellon Corp. (2014 NY Slip Op 51135(U)).pdf")
        = "database/cases" ++ "/" ++ jurisdictionOf Category.supreme_court ++ "/"
          ++ catName Category.supreme_court ∧
    (jurisdictionOf Category.supreme_court = "federal" ↔
      Category.supreme_court ∈ federalCats) :=
  (c6_organize_paths (fun _ => "") []
    "Carbonara v Bank of N.Y. Mellon Corp. (2014 NY Slip Op 51135(U)).pdf"
    "database/cases" Category.supreme_court (mkRat 85 100)
    (["database/cases/nys/supreme_court/Carbonara v Bank of N.Y. Mellon Corp. (2014 NY Slip Op 51135(U)).pdf"],
      "database/cases/nys/supreme_court/Carbonara v Bank of N.Y. Mellon Corp. (2014 NY Slip Op 51135(U)).pdf")
    rfl rfl).2 (by decide)

end CourtClassifier
